import Mathlib

/-!
The response tracker of `api_router` (writer.go).

A shallow embedding of `responseTracker` and of the three `httpsnoop` hooks that
`newResponseTracker` installs around the real `http.ResponseWriter`.

* The real response writer is an arbitrary state machine (`Sink`); every call the
  tracker makes on it (`next(...)` in the hooks) is also appended to a call log, so
  that statements about "what the sink received" can be written down.
* `int` status codes and the `int64` byte counter are integers. The counter is not
  wrapped: it only grows by what the sink reports, and wrapping needs 2^63 bytes.
* A Go `error` is `Option GoError` (`none` is `nil`).
* An `io.Reader` is described by what reading it to the end yields.
-/

namespace ApiRouter

/-- One octet of a response body. -/
abbrev Byte := Fin 256

/-- A non-nil Go `error`, identified by its message. -/
abbrev GoError := String

/-- An `io.Reader`: reading it to the end yields `data` and then either end of file
(`err = none`) or the read error `err`. -/
structure Reader where
  data : List Byte
  err : Option GoError
deriving DecidableEq, Repr

/-- The real `http.ResponseWriter` (with its optional `io.ReaderFrom`) that
`httpsnoop.Wrap` wraps: a state machine over `σ`. `Write` and `ReadFrom` return the
Go result pair `(n, err)` and the next state. `Write_le` is the upper half of the
`io.Writer` contract (`n <= len(p)`), without which `p[:n]` in the `Write` hook is
not defined; a negative `n` is allowed, the hooks test for it. -/
structure Sink (σ : Type) where
  WriteHeader : σ → Int → σ
  Write : σ → List Byte → (Int × Option GoError) × σ
  ReadFrom : σ → Reader → (Int × Option GoError) × σ
  Write_le : ∀ s p, (Write s p).1.1 ≤ (p.length : Int)

/-- The fields of `responseTracker` (the embedded `http.ResponseWriter` is the
hooked sink, held in `World`). -/
structure responseTracker where
  storeResponse : Bool
  statusWritten : Bool
  defaultStatus : Int
  status : Int
  size : Int
  response : List Byte
deriving DecidableEq, Repr

/-- One call made on the real sink, with the result the sink returned. -/
inductive SinkCall where
  | WriteHeader (code : Int)
  | Write (p : List Byte) (n : Int) (err : Option GoError)
  | ReadFrom (src : Reader) (n : Int) (err : Option GoError)
deriving DecidableEq, Repr

/-- A tracker together with the real sink it wraps and the log of the calls made on
that sink so far, oldest first. -/
structure World (σ : Type) where
  rw : responseTracker
  sink : σ
  calls : List SinkCall
deriving DecidableEq, Repr

variable {σ : Type}

/-- The `next(code)` of the `WriteHeader` hook: the real sink's `WriteHeader`. -/
def nextWriteHeader (k : Sink σ) (w : World σ) (code : Int) : World σ :=
  { w with sink := k.WriteHeader w.sink code, calls := w.calls ++ [SinkCall.WriteHeader code] }

/-- The `next(p)` of the `Write` hook: the real sink's `Write`. -/
def nextWrite (k : Sink σ) (w : World σ) (p : List Byte) : (Int × Option GoError) × World σ :=
  let r := k.Write w.sink p
  (r.1, { w with sink := r.2, calls := w.calls ++ [SinkCall.Write p r.1.1 r.1.2] })

/-- The `next(src)` of the `ReadFrom` hook: the real sink's `ReadFrom`. -/
def nextReadFrom (k : Sink σ) (w : World σ) (src : Reader) : (Int × Option GoError) × World σ :=
  let r := k.ReadFrom w.sink src
  (r.1, { w with sink := r.2, calls := w.calls ++ [SinkCall.ReadFrom src r.1.1 r.1.2] })

/-- The `WriteHeader` hook (writer.go 69-77); this is what `rw.WriteHeader` resolves to. -/
def Hooks.WriteHeader (k : Sink σ) (w : World σ) (code : Int) : World σ :=
  if !w.rw.statusWritten then
    let w1 := nextWriteHeader k w code
    { w1 with rw := { w1.rw with status := code, statusWritten := true } }
  else w

/-- `writeStatusHeader` (writer.go 30-36). -/
def writeStatusHeader (k : Sink σ) (w : World σ) : World σ :=
  let w1 : World σ :=
    if w.rw.status == 0 then { w with rw := { w.rw with status := w.rw.defaultStatus } } else w
  let w2 := Hooks.WriteHeader k w1 w1.rw.status
  { w2 with rw := { w2.rw with statusWritten := true } }

/-- `WriteStatusHeader` (writer.go 38-42). -/
def WriteStatusHeader (k : Sink σ) (w : World σ) : World σ :=
  if !w.rw.statusWritten then writeStatusHeader k w else w

/-- `Status` (writer.go 44-46). -/
def Status (w : World σ) : Int := w.rw.status

/-- `Size` (writer.go 48-50). -/
def Size (w : World σ) : Int := w.rw.size

/-- `SetStatus` (writer.go 52-56). -/
def SetStatus (w : World σ) (status : Int) : World σ :=
  if !w.rw.statusWritten then { w with rw := { w.rw with status := status } } else w

/-- `Response` (writer.go 58-60). -/
def Response (w : World σ) : List Byte := w.rw.response

/-- The `Write` hook (writer.go 79-93). `p[:n]` is `p.take n`, `n` being at most
`len(p)` by `Sink.Write_le`. -/
def Hooks.Write (k : Sink σ) (w : World σ) (p : List Byte) : (Int × Option GoError) × World σ :=
  let w1 := if !w.rw.statusWritten then writeStatusHeader k w else w
  let r := nextWrite k w1 p
  let n := r.1.1
  let err := r.1.2
  let w2 := r.2
  let w3 : World σ :=
    if n ≥ 0 then
      let w2a : World σ :=
        if w2.rw.storeResponse then
          { w2 with rw := { w2.rw with response := w2.rw.response ++ p.take n.toNat } }
        else w2
      { w2a with rw := { w2a.rw with size := w2a.rw.size + n } }
    else w2
  ((n, err), w3)

/-- The `ReadFrom` hook (writer.go 95-117). With capture on, `io.Copy(&buf, src)`
drains the source into `buf`; on a read error the hook returns `(0, err)`, otherwise
the buffered bytes are appended to `response` and the sink reads from the buffer. -/
def Hooks.ReadFrom (k : Sink σ) (w : World σ) (src : Reader) : (Int × Option GoError) × World σ :=
  let w1 := if !w.rw.statusWritten then writeStatusHeader k w else w
  if w1.rw.storeResponse then
    let buf : List Byte := src.data
    match src.err with
    | some e => ((0, some e), w1)
    | none =>
      let w2 : World σ := { w1 with rw := { w1.rw with response := w1.rw.response ++ buf } }
      nextReadFrom k w2 { data := buf, err := none }
  else
    let r := nextReadFrom k w1 src
    let n := r.1.1
    let err := r.1.2
    let w2 := r.2
    let w3 : World σ :=
      if n ≥ 0 then { w2 with rw := { w2.rw with size := w2.rw.size + n } } else w2
    ((n, err), w3)

/-- The status `writeStatusHeader` sends when none was emitted yet: the recorded
status or, when that is unset (0), the default status. -/
def pendingStatus (w : World σ) : Int :=
  if w.rw.status = 0 then w.rw.defaultStatus else w.rw.status

/-- `newResponseTracker` (writer.go 62-122) around the real sink in state `s`. -/
def newResponseTracker (s : σ) (default_status : Int) (store_response : Bool) : World σ :=
  { rw := { storeResponse := store_response, statusWritten := false,
            defaultStatus := default_status, status := 0, size := 0, response := [] },
    sink := s, calls := [] }

/-- A call a handler can make on the tracker. -/
inductive Op where
  | SetStatus (code : Int)
  | WriteStatusHeader
  | WriteHeader (code : Int)
  | Write (p : List Byte)
  | ReadFrom (src : Reader)
deriving DecidableEq, Repr

/-- The tracker after one handler call (the call's result pair is dropped). -/
def step (k : Sink σ) (w : World σ) : Op → World σ
  | Op.SetStatus c => SetStatus w c
  | Op.WriteStatusHeader => WriteStatusHeader k w
  | Op.WriteHeader c => Hooks.WriteHeader k w c
  | Op.Write p => (Hooks.Write k w p).2
  | Op.ReadFrom src => (Hooks.ReadFrom k w src).2

/-- The tracker after a sequence of handler calls, made in order. -/
def run (k : Sink σ) (w : World σ) (ops : List Op) : World σ :=
  ops.foldl (step k) w

/-- The status codes the real sink's `WriteHeader` received, in order. -/
def emitted : List SinkCall → List Int
  | [] => []
  | SinkCall.WriteHeader c :: cs => c :: emitted cs
  | _ :: cs => emitted cs

/-- The number of bytes the sink reported as accepted by one call. -/
def SinkCall.count : SinkCall → Int
  | SinkCall.WriteHeader _ => 0
  | SinkCall.Write _ n _ => if n ≥ 0 then n else 0
  | SinkCall.ReadFrom _ n _ => if n ≥ 0 then n else 0

/-- The total number of bytes the sink reported as accepted. -/
def bytesAccepted (cs : List SinkCall) : Int :=
  (cs.map SinkCall.count).sum

/-- The bytes the sink accepted in one call: the first `n` of those offered. -/
def SinkCall.taken : SinkCall → List Byte
  | SinkCall.WriteHeader _ => []
  | SinkCall.Write p n _ => p.take n.toNat
  | SinkCall.ReadFrom src n _ => src.data.take n.toNat

/-- The byte sequence the sink accepted over all calls, in order. -/
def bodyAccepted (cs : List SinkCall) : List Byte :=
  (cs.map SinkCall.taken).flatten

/-- The bytes a handler call offers for the body. -/
def Op.offered : Op → List Byte
  | Op.Write p => p
  | Op.ReadFrom src => src.data
  | _ => []

/-- Whether a handler call is a bulk transfer from a source that fails. -/
def Op.failingSource : Op → Bool
  | Op.ReadFrom src => src.err.isSome
  | _ => false

/-- Whether a handler call moves body bytes (`Write` or `ReadFrom`). -/
def Op.isBody : Op → Bool
  | Op.Write _ => true
  | Op.ReadFrom _ => true
  | _ => false

/-- Whether a handler call emits the status line from the recorded or default status
when none was emitted yet (`Write`, `ReadFrom` or `WriteStatusHeader`). -/
def Op.finalizes : Op → Bool
  | Op.Write _ => true
  | Op.ReadFrom _ => true
  | Op.WriteStatusHeader => true
  | _ => false

/-- The call log agrees with the tracker: nothing was emitted while `statusWritten`
is false, and exactly `status` was emitted once it is true. -/
def Consistent (w : World σ) : Prop :=
  emitted w.calls = if w.rw.statusWritten = true then [w.rw.status] else []

/-- Whether a call on the sink carries body bytes (`Write` or `ReadFrom`). -/
def SinkCall.isBody : SinkCall → Bool
  | SinkCall.WriteHeader _ => false
  | SinkCall.Write _ _ _ => true
  | SinkCall.ReadFrom _ _ _ => true

/-- The call log starts with the status line: no call was made on the sink while
`statusWritten` is false, and the first call made is a `WriteHeader` once it is true. -/
def HeaderFirst (w : World σ) : Prop :=
  if w.rw.statusWritten = true then ∃ c rest, w.calls = SinkCall.WriteHeader c :: rest
  else w.calls = []

/-- The bytes of the Go conversion `[]byte(s)` for a string of ASCII characters: one
byte per character, its code. -/
def asciiBytes (s : String) : List Byte :=
  s.data.map (fun c => Fin.ofNat c.toNat)

/-- The state of an in-memory sink used in examples: the status codes and the body
bytes received so far. -/
structure MemSink where
  codes : List Int
  body : List Byte
deriving DecidableEq, Repr

/-- The number of bytes the in-memory sink takes out of `len` offered: all of them
when `limit = none`, at most `m` per call when `limit = some m`. -/
def accepts (limit : Option Nat) (len : Nat) : Nat :=
  match limit with
  | none => len
  | some m => min len m

/-- The in-memory sink with a per-call limit. A call that takes fewer bytes than
offered reports `io.ErrShortWrite`; `ReadFrom` otherwise reports the read error of
the source, after taking the bytes the source yielded. -/
def memSink (limit : Option Nat) : Sink MemSink where
  WriteHeader s c := { s with codes := s.codes ++ [c] }
  Write s p :=
    (((accepts limit p.length : Nat),
        if accepts limit p.length < p.length then some "short write" else none),
      { s with body := s.body ++ p.take (accepts limit p.length) })
  ReadFrom s src :=
    (((accepts limit src.data.length : Nat),
        if accepts limit src.data.length < src.data.length then some "short write" else src.err),
      { s with body := s.body ++ src.data.take (accepts limit src.data.length) })
  Write_le s p := by
    show ((accepts limit p.length : Nat) : Int) ≤ (p.length : Int)
    exact Int.ofNat_le.mpr (by cases limit <;> simp [accepts])

/-- The empty in-memory sink. -/
def MemSink.empty : MemSink := { codes := [], body := [] }

/-! ## How each call acts -/

theorem emitted_append (a b : List SinkCall) : emitted (a ++ b) = emitted a ++ emitted b := by
  induction a with
  | nil => rfl
  | cons c cs ih => cases c <;> simp [emitted, ih]

theorem writeStatusHeader_unwritten (k : Sink σ) (w : World σ) (h : w.rw.statusWritten = false) :
    writeStatusHeader k w =
      { rw := { w.rw with status := pendingStatus w, statusWritten := true },
        sink := k.WriteHeader w.sink (pendingStatus w),
        calls := w.calls ++ [SinkCall.WriteHeader (pendingStatus w)] } := by
  unfold writeStatusHeader Hooks.WriteHeader nextWriteHeader pendingStatus
  by_cases h0 : w.rw.status = 0 <;> simp [h, h0]

theorem WriteStatusHeader_written (k : Sink σ) (w : World σ) (h : w.rw.statusWritten = true) :
    WriteStatusHeader k w = w := by
  simp [WriteStatusHeader, h]

theorem WriteStatusHeader_unwritten (k : Sink σ) (w : World σ) (h : w.rw.statusWritten = false) :
    WriteStatusHeader k w =
      { rw := { w.rw with status := pendingStatus w, statusWritten := true },
        sink := k.WriteHeader w.sink (pendingStatus w),
        calls := w.calls ++ [SinkCall.WriteHeader (pendingStatus w)] } := by
  simp [WriteStatusHeader, h, writeStatusHeader_unwritten]

theorem WriteStatusHeader_statusWritten (k : Sink σ) (w : World σ) :
    (WriteStatusHeader k w).rw.statusWritten = true := by
  cases h : w.rw.statusWritten
  · rw [WriteStatusHeader_unwritten k w h]
  · rw [WriteStatusHeader_written k w h]; exact h

theorem WriteStatusHeader_storeResponse (k : Sink σ) (w : World σ) :
    (WriteStatusHeader k w).rw.storeResponse = w.rw.storeResponse := by
  cases h : w.rw.statusWritten
  · rw [WriteStatusHeader_unwritten k w h]
  · rw [WriteStatusHeader_written k w h]

theorem WriteStatusHeader_size (k : Sink σ) (w : World σ) :
    (WriteStatusHeader k w).rw.size = w.rw.size := by
  cases h : w.rw.statusWritten
  · rw [WriteStatusHeader_unwritten k w h]
  · rw [WriteStatusHeader_written k w h]

theorem WriteStatusHeader_response (k : Sink σ) (w : World σ) :
    (WriteStatusHeader k w).rw.response = w.rw.response := by
  cases h : w.rw.statusWritten
  · rw [WriteStatusHeader_unwritten k w h]
  · rw [WriteStatusHeader_written k w h]

/-- The `Write` hook, spelled out over the tracker with its status line emitted. -/
theorem Hooks_Write_eq (k : Sink σ) (w : World σ) (p : List Byte) :
    Hooks.Write k w p =
      let w1 := WriteStatusHeader k w
      let r := k.Write w1.sink p
      (r.1,
        { rw := { w1.rw with
                  response := if 0 ≤ r.1.1 ∧ w1.rw.storeResponse = true
                    then w1.rw.response ++ p.take r.1.1.toNat else w1.rw.response,
                  size := if 0 ≤ r.1.1 then w1.rw.size + r.1.1 else w1.rw.size },
          sink := r.2,
          calls := w1.calls ++ [SinkCall.Write p r.1.1 r.1.2] }) := by
  unfold Hooks.Write WriteStatusHeader nextWrite
  generalize (if (!w.rw.statusWritten) = true then writeStatusHeader k w else w) = w1
  rcases w1 with ⟨⟨sr, sw, ds, st, sz, resp⟩, snk, cl⟩
  by_cases hn : 0 ≤ (k.Write snk p).1.1 <;> cases sr <;> simp [hn]

/-- The `ReadFrom` hook, spelled out over the tracker with its status line emitted. -/
theorem Hooks_ReadFrom_eq (k : Sink σ) (w : World σ) (src : Reader) :
    Hooks.ReadFrom k w src =
      let w1 := WriteStatusHeader k w
      if w1.rw.storeResponse = true then
        match src.err with
        | some e => ((0, some e), w1)
        | none =>
          let r := k.ReadFrom w1.sink { data := src.data, err := none }
          (r.1,
            { rw := { w1.rw with response := w1.rw.response ++ src.data },
              sink := r.2,
              calls := w1.calls ++ [SinkCall.ReadFrom { data := src.data, err := none } r.1.1 r.1.2] })
      else
        let r := k.ReadFrom w1.sink src
        (r.1,
          { rw := { w1.rw with size := if 0 ≤ r.1.1 then w1.rw.size + r.1.1 else w1.rw.size },
            sink := r.2,
            calls := w1.calls ++ [SinkCall.ReadFrom src r.1.1 r.1.2] }) := by
  unfold Hooks.ReadFrom WriteStatusHeader nextReadFrom
  generalize (if (!w.rw.statusWritten) = true then writeStatusHeader k w else w) = w1
  rcases w1 with ⟨⟨sr, sw, ds, st, sz, resp⟩, snk, cl⟩
  cases sr
  · by_cases hn : 0 ≤ (k.ReadFrom snk src).1.1 <;> simp [hn]
  · simp only [if_true]

/-! ## The status line -/

theorem Consistent_new (s : σ) (D : Int) (cap : Bool) :
    Consistent (newResponseTracker s D cap) := by
  simp [Consistent, newResponseTracker, emitted]

theorem Consistent_WriteStatusHeader (k : Sink σ) (w : World σ) (h : Consistent w) :
    Consistent (WriteStatusHeader k w) := by
  cases hw : w.rw.statusWritten
  · rw [WriteStatusHeader_unwritten k w hw]
    simp [Consistent, hw] at h
    simp [Consistent, emitted_append, h, emitted]
  · rw [WriteStatusHeader_written k w hw]; exact h

theorem Consistent_step (k : Sink σ) (w : World σ) (op : Op) (h : Consistent w) :
    Consistent (step k w op) := by
  cases op with
  | SetStatus c =>
    cases hw : w.rw.statusWritten <;> simp [Consistent, hw] at h <;>
      simp [step, SetStatus, hw, Consistent, h]
  | WriteStatusHeader => exact Consistent_WriteStatusHeader k w h
  | WriteHeader c =>
    cases hw : w.rw.statusWritten <;> simp [Consistent, hw] at h <;>
      simp [step, Hooks.WriteHeader, nextWriteHeader, hw, Consistent, h, emitted_append, emitted]
  | Write p =>
    have h1 := Consistent_WriteStatusHeader k w h
    simp only [step, Hooks_Write_eq]
    simp only [Consistent] at h1 ⊢
    simp [emitted_append, emitted, h1]
  | ReadFrom src =>
    have h1 := Consistent_WriteStatusHeader k w h
    simp only [step, Hooks_ReadFrom_eq]
    simp only [Consistent] at h1 ⊢
    split
    · cases src.err <;> simp [emitted_append, emitted, h1]
    · simp [emitted_append, emitted, h1]

theorem run_append (k : Sink σ) (w : World σ) (a b : List Op) :
    run k w (a ++ b) = run k (run k w a) b := by
  simp [run, List.foldl_append]

theorem run_cons (k : Sink σ) (w : World σ) (op : Op) (ops : List Op) :
    run k w (op :: ops) = run k (step k w op) ops := rfl

theorem run_nil (k : Sink σ) (w : World σ) : run k w [] = w := rfl

theorem Consistent_run (k : Sink σ) (ops : List Op) :
    ∀ w : World σ, Consistent w → Consistent (run k w ops) := by
  induction ops with
  | nil => intro w h; exact h
  | cons op ops ih => intro w h; exact ih _ (Consistent_step k w op h)

/-- Once the status line is emitted, no call changes `statusWritten` or `status`. -/
theorem step_written (k : Sink σ) (w : World σ) (op : Op) (h : w.rw.statusWritten = true) :
    (step k w op).rw.statusWritten = true ∧ (step k w op).rw.status = w.rw.status := by
  cases op with
  | SetStatus c => simp [step, SetStatus, h]
  | WriteStatusHeader => simp [step, WriteStatusHeader, h]
  | WriteHeader c => simp [step, Hooks.WriteHeader, h]
  | Write p =>
    simp [step, Hooks_Write_eq, WriteStatusHeader_written k w h, h]
  | ReadFrom src =>
    simp only [step, Hooks_ReadFrom_eq, WriteStatusHeader_written k w h]
    split
    · cases src.err <;> exact ⟨h, rfl⟩
    · exact ⟨h, rfl⟩

theorem run_written (k : Sink σ) (ops : List Op) :
    ∀ w : World σ, w.rw.statusWritten = true →
      (run k w ops).rw.statusWritten = true ∧ (run k w ops).rw.status = w.rw.status := by
  induction ops with
  | nil => intro w h; exact ⟨h, rfl⟩
  | cons op ops ih =>
    intro w h
    have h1 := step_written k w op h
    have h2 := ih _ h1.1
    exact ⟨h2.1, h2.2.trans h1.2⟩

/-- A `Write`, `ReadFrom` or `WriteStatusHeader` on a tracker that has not emitted
its status line emits the pending status. -/
theorem step_finalizes (k : Sink σ) (w : World σ) (op : Op) (hop : op.finalizes = true)
    (h : w.rw.statusWritten = false) :
    (step k w op).rw.statusWritten = true ∧ (step k w op).rw.status = pendingStatus w := by
  cases op with
  | SetStatus c => simp [Op.finalizes] at hop
  | WriteHeader c => simp [Op.finalizes] at hop
  | WriteStatusHeader => simp [step, WriteStatusHeader_unwritten k w h]
  | Write p =>
    simp [step, Hooks_Write_eq, WriteStatusHeader_unwritten k w h]
  | ReadFrom src =>
    simp only [step, Hooks_ReadFrom_eq, WriteStatusHeader_unwritten k w h]
    split
    · cases src.err <;> exact ⟨rfl, rfl⟩
    · exact ⟨rfl, rfl⟩

/-! ## Byte count and capture -/

theorem bytesAccepted_append (a b : List SinkCall) :
    bytesAccepted (a ++ b) = bytesAccepted a + bytesAccepted b := by
  simp [bytesAccepted]

theorem bytesAccepted_WriteStatusHeader (k : Sink σ) (w : World σ) :
    bytesAccepted (WriteStatusHeader k w).calls = bytesAccepted w.calls := by
  cases h : w.rw.statusWritten
  · rw [WriteStatusHeader_unwritten k w h]
    simp [bytesAccepted, SinkCall.count]
  · rw [WriteStatusHeader_written k w h]

theorem step_storeResponse (k : Sink σ) (w : World σ) (op : Op) :
    (step k w op).rw.storeResponse = w.rw.storeResponse := by
  cases op with
  | SetStatus c => cases h : w.rw.statusWritten <;> simp [step, SetStatus, h]
  | WriteStatusHeader => exact WriteStatusHeader_storeResponse k w
  | WriteHeader c =>
    cases h : w.rw.statusWritten <;> simp [step, Hooks.WriteHeader, nextWriteHeader, h]
  | Write p => simp [step, Hooks_Write_eq, WriteStatusHeader_storeResponse]
  | ReadFrom src =>
    simp only [step, Hooks_ReadFrom_eq]
    split
    · cases src.err <;> simp [WriteStatusHeader_storeResponse]
    · simp [WriteStatusHeader_storeResponse]

theorem run_storeResponse (k : Sink σ) (ops : List Op) :
    ∀ w : World σ, (run k w ops).rw.storeResponse = w.rw.storeResponse := by
  induction ops with
  | nil => intro w; rfl
  | cons op ops ih => intro w; rw [run_cons, ih, step_storeResponse]

/-- Every call other than a bulk transfer into a capturing tracker keeps the byte
counter equal to what the sink reported as accepted. -/
theorem step_size (k : Sink σ) (w : World σ) (op : Op)
    (hop : ∀ src, op = Op.ReadFrom src → w.rw.storeResponse = false)
    (h : w.rw.size = bytesAccepted w.calls) :
    (step k w op).rw.size = bytesAccepted (step k w op).calls := by
  cases op with
  | SetStatus c => cases hw : w.rw.statusWritten <;> simp [step, SetStatus, hw, h]
  | WriteStatusHeader =>
    simp [step, WriteStatusHeader_size, bytesAccepted_WriteStatusHeader, h]
  | WriteHeader c =>
    cases hw : w.rw.statusWritten <;>
      simp [step, Hooks.WriteHeader, nextWriteHeader, hw, h, bytesAccepted, SinkCall.count]
  | Write p =>
    simp only [step, Hooks_Write_eq, bytesAccepted_append, WriteStatusHeader_size,
      bytesAccepted_WriteStatusHeader, h]
    simp [bytesAccepted, SinkCall.count]
    split <;> simp
  | ReadFrom src =>
    have hc : (WriteStatusHeader k w).rw.storeResponse = false := by
      rw [WriteStatusHeader_storeResponse]; exact hop src rfl
    have hb := bytesAccepted_WriteStatusHeader k w
    simp only [bytesAccepted] at hb
    simp only [step, Hooks_ReadFrom_eq, hc, bytesAccepted_append, WriteStatusHeader_size,
      bytesAccepted_WriteStatusHeader, h]
    simp [bytesAccepted, SinkCall.count]
    split <;> simp [hb]

theorem run_writes_size (k : Sink σ) (ps : List (List Byte)) :
    ∀ w : World σ, w.rw.size = bytesAccepted w.calls →
      (run k w (ps.map Op.Write)).rw.size = bytesAccepted (run k w (ps.map Op.Write)).calls := by
  induction ps with
  | nil => intro w h; exact h
  | cons p ps ih =>
    intro w h
    exact ih _ (step_size k w (Op.Write p) (fun src hs => by cases hs) h)

theorem run_writes_size_full (k : Sink σ) (hfull : ∀ s p, (k.Write s p).1.1 = (p.length : Int))
    (ps : List (List Byte)) :
    ∀ w : World σ,
      (run k w (ps.map Op.Write)).rw.size = w.rw.size + ((ps.map List.length).sum : Nat) := by
  induction ps with
  | nil => intro w; simp [run]
  | cons p ps ih =>
    intro w
    rw [List.map_cons, run_cons, ih]
    simp [step, Hooks_Write_eq, hfull, WriteStatusHeader_size]
    ring

/-- With capture on, a sink that takes every chunk in full and a source that reads
without error, one call extends the captured body by exactly what it offered. -/
theorem step_response (k : Sink σ) (hfull : ∀ s p, (k.Write s p).1.1 = (p.length : Int))
    (w : World σ) (op : Op) (hcap : w.rw.storeResponse = true)
    (hsrc : op.failingSource = false) :
    (step k w op).rw.response = w.rw.response ++ op.offered := by
  cases op with
  | SetStatus c => cases hw : w.rw.statusWritten <;> simp [step, SetStatus, hw, Op.offered]
  | WriteStatusHeader => simp [step, WriteStatusHeader_response, Op.offered]
  | WriteHeader c =>
    cases hw : w.rw.statusWritten <;>
      simp [step, Hooks.WriteHeader, nextWriteHeader, hw, Op.offered]
  | Write p =>
    simp [step, Hooks_Write_eq, hfull, WriteStatusHeader_storeResponse, hcap,
      WriteStatusHeader_response, Op.offered]
  | ReadFrom src =>
    have he : src.err = none := by
      cases h : src.err with
      | none => rfl
      | some e => simp [Op.failingSource, h] at hsrc
    simp [step, Hooks_ReadFrom_eq, WriteStatusHeader_storeResponse, hcap, he,
      WriteStatusHeader_response, Op.offered]

theorem run_response (k : Sink σ) (hfull : ∀ s p, (k.Write s p).1.1 = (p.length : Int))
    (ops : List Op) :
    ∀ w : World σ, w.rw.storeResponse = true → (∀ op ∈ ops, op.failingSource = false) →
      (run k w ops).rw.response = w.rw.response ++ (ops.map Op.offered).flatten := by
  induction ops with
  | nil => intro w _ _; simp [run]
  | cons op ops ih =>
    intro w hcap hsrc
    rw [run_cons, ih _ (by rw [step_storeResponse]; exact hcap)
      (fun o ho => hsrc o (List.mem_cons_of_mem _ ho)),
      step_response k hfull w op hcap (hsrc op (List.mem_cons_self _ _))]
    simp

/-! ## Claims -/

/-- C1. Single emission: after any sequence of tracker calls (SetStatus,
WriteStatusHeader, a direct WriteHeader, Write, ReadFrom) on a fresh tracker the real
sink's WriteHeader has been invoked at most once; and two consecutive one-byte Writes
on a fresh tracker with default status 200, into a sink that takes each byte, emit
status 200 exactly once and leave Size() = 2. -/
theorem single_emission (k : Sink σ) (s : σ) (D : Int) (cap : Bool) :
    (∀ ops : List Op, (emitted (run k (newResponseTracker s D cap) ops).calls).length ≤ 1) ∧
    ((∀ s p, (k.Write s p).1.1 = (p.length : Int)) → ∀ a b : Byte,
      emitted (run k (newResponseTracker s 200 cap) [Op.Write [a], Op.Write [b]]).calls = [200] ∧
      Size (run k (newResponseTracker s 200 cap) [Op.Write [a], Op.Write [b]]) = 2) := by
  constructor
  · intro ops
    have h := Consistent_run k ops _ (Consistent_new s D cap)
    rw [h]
    split <;> simp
  · intro hfull a b
    have hfin := step_finalizes k (newResponseTracker s 200 cap) (Op.Write [a]) rfl rfl
    have hw := run_written k [Op.Write [b]] _ hfin.1
    have hc := Consistent_run k [Op.Write [a], Op.Write [b]] _ (Consistent_new s 200 cap)
    have hsz := run_writes_size_full k hfull [[a], [b]] (newResponseTracker s 200 cap)
    constructor
    · rw [hc]
      rw [run_cons, hw.1, hw.2, hfin.2]
      simp [pendingStatus, newResponseTracker]
    · simpa [Size, newResponseTracker] using hsz

/-- Witness for C1: the in-memory sink that takes every byte, two one-byte writes. -/
theorem single_emission_witness :
    emitted (run (memSink none) (newResponseTracker MemSink.empty 200 true)
        [Op.Write [1], Op.Write [2]]).calls = [200] ∧
      Size (run (memSink none) (newResponseTracker MemSink.empty 200 true)
        [Op.Write [1], Op.Write [2]]) = 2 :=
  (single_emission (memSink none) MemSink.empty 200 true).2 (fun _ _ => rfl) 1 2

/-- C2. For every default status D and every non-empty sequence of Write calls on a
fresh tracker with no SetStatus, the sink receives status D (once), Size() is the sum
of the byte counts the sink reported for the writes, and that is the sum of the chunk
lengths when the sink takes every chunk in full. -/
theorem writes_emit_default_and_count (k : Sink σ) (s : σ) (D : Int) (cap : Bool)
    (ps : List (List Byte)) (hps : ps ≠ []) :
    emitted (run k (newResponseTracker s D cap) (ps.map Op.Write)).calls = [D] ∧
    Size (run k (newResponseTracker s D cap) (ps.map Op.Write)) =
      bytesAccepted (run k (newResponseTracker s D cap) (ps.map Op.Write)).calls ∧
    ((∀ s p, (k.Write s p).1.1 = (p.length : Int)) →
      Size (run k (newResponseTracker s D cap) (ps.map Op.Write)) =
        ((ps.map List.length).sum : Nat)) := by
  refine ⟨?_, ?_, ?_⟩
  · cases ps with
    | nil => exact absurd rfl hps
    | cons p ps =>
      have hfin := step_finalizes k (newResponseTracker s D cap) (Op.Write p) rfl rfl
      have hw := run_written k (ps.map Op.Write) _ hfin.1
      have hc := Consistent_run k ((p :: ps).map Op.Write) _ (Consistent_new s D cap)
      rw [hc, List.map_cons, run_cons, hw.1, hw.2, hfin.2]
      simp [pendingStatus, newResponseTracker]
  · exact run_writes_size k ps _ (by simp [newResponseTracker, bytesAccepted])
  · intro hfull
    have hsz := run_writes_size_full k hfull ps (newResponseTracker s D cap)
    simpa [Size, newResponseTracker] using hsz

/-- Witness for C2: default status 201, writes of 2 and 1 bytes into the in-memory
sink, which takes every byte. -/
theorem writes_emit_default_and_count_witness :
    ([[7, 8], [9]] : List (List Byte)) ≠ [] ∧
    emitted (run (memSink none) (newResponseTracker MemSink.empty 201 false)
        ([[7, 8], [9]].map Op.Write)).calls = [201] ∧
    Size (run (memSink none) (newResponseTracker MemSink.empty 201 false)
        ([[7, 8], [9]].map Op.Write)) = 3 :=
  ⟨by decide,
    (writes_emit_default_and_count (memSink none) MemSink.empty 201 false [[7, 8], [9]]
      (by decide)).1,
    (writes_emit_default_and_count (memSink none) MemSink.empty 201 false [[7, 8], [9]]
      (by decide)).2.2 (fun _ _ => rfl)⟩

theorem run_setStatus (k : Sink σ) (cs : List Int) :
    ∀ w : World σ, w.rw.statusWritten = false →
      (run k w (cs.map Op.SetStatus)).rw.statusWritten = false ∧
      (run k w (cs.map Op.SetStatus)).calls = w.calls := by
  induction cs with
  | nil => intro w h; exact ⟨h, rfl⟩
  | cons c cs ih =>
    intro w h
    have h1 : (step k w (Op.SetStatus c)).rw.statusWritten = false := by
      simp [step, SetStatus, h]
    have h2 : (step k w (Op.SetStatus c)).calls = w.calls := by
      simp [step, SetStatus, h]
    have h3 := ih _ h1
    exact ⟨h3.1, h3.2.trans h2⟩

/-- C3, counterexample: SetStatus(0) on a fresh tracker with default status 200,
followed by WriteStatusHeader, sends 200 to the sink and not 0. -/
theorem setStatus_zero_emits_default :
    emitted (run (memSink none) (newResponseTracker MemSink.empty 200 false)
        [Op.SetStatus 0, Op.WriteStatusHeader]).calls = [200] ∧
    emitted (run (memSink none) (newResponseTracker MemSink.empty 200 false)
        [Op.SetStatus 0, Op.WriteStatusHeader]).calls ≠ [0] := by
  decide

/-- C3, amended. For every non-zero status code S and every default status D: when
SetStatus(S) is the last of any number of SetStatus calls on a fresh tracker, the
first Write, ReadFrom or WriteStatusHeader sends S to the sink, and whatever calls
follow (SetStatus included) the sink has received S and nothing else as status and
Status() is S; SetStatus(S) followed only by WriteStatusHeader makes exactly one call
on the sink, WriteHeader(S), so no body bytes. -/
theorem last_setStatus_is_emitted (k : Sink σ) (s : σ) (D : Int) (cap : Bool)
    (cs : List Int) (S : Int) (e : Op) (later : List Op)
    (hS : S ≠ 0) (he : e.finalizes = true) :
    emitted (run k (newResponseTracker s D cap)
        (cs.map Op.SetStatus ++ Op.SetStatus S :: e :: later)).calls = [S] ∧
    Status (run k (newResponseTracker s D cap)
        (cs.map Op.SetStatus ++ Op.SetStatus S :: e :: later)) = S ∧
    (run k (newResponseTracker s D cap) [Op.SetStatus S, Op.WriteStatusHeader]).calls =
      [SinkCall.WriteHeader S] := by
  have hc := Consistent_run k (cs.map Op.SetStatus ++ Op.SetStatus S :: e :: later) _
    (Consistent_new s D cap)
  have h0 := run_setStatus k cs (newResponseTracker s D cap) rfl
  have h1 : (step k (run k (newResponseTracker s D cap) (cs.map Op.SetStatus))
      (Op.SetStatus S)).rw.statusWritten = false := by
    simp [step, SetStatus, h0.1]
  have h2 : pendingStatus (step k (run k (newResponseTracker s D cap) (cs.map Op.SetStatus))
      (Op.SetStatus S)) = S := by
    simp [step, SetStatus, h0.1, pendingStatus, hS]
  have hfin := step_finalizes k _ e he h1
  have hw := run_written k later _ hfin.1
  have hst : (run k (newResponseTracker s D cap)
      (cs.map Op.SetStatus ++ Op.SetStatus S :: e :: later)).rw.status = S := by
    rw [run_append, run_cons, run_cons, hw.2, hfin.2, h2]
  have hwr : (run k (newResponseTracker s D cap)
      (cs.map Op.SetStatus ++ Op.SetStatus S :: e :: later)).rw.statusWritten = true := by
    rw [run_append, run_cons, run_cons, hw.1]
  refine ⟨?_, hst, ?_⟩
  · rw [hc, hwr, hst]; simp
  · simp [run, step, SetStatus, newResponseTracker, WriteStatusHeader_unwritten,
      pendingStatus, hS]

/-- Witness for C3: SetStatus(404), SetStatus(345), then a Write, then SetStatus(500). -/
theorem last_setStatus_is_emitted_witness :
    (345 : Int) ≠ 0 ∧ (Op.Write [1]).finalizes = true ∧
    emitted (run (memSink none) (newResponseTracker MemSink.empty 200 true)
        ([404].map Op.SetStatus ++ Op.SetStatus 345 :: Op.Write [1] :: [Op.SetStatus 500])).calls
      = [345] :=
  ⟨by decide, rfl,
    (last_setStatus_is_emitted (memSink none) MemSink.empty 200 true [404] 345 (Op.Write [1])
      [Op.SetStatus 500] (by decide) rfl).1⟩

/-- C4, the failing input: a bulk transfer of one byte into a fresh capturing tracker
whose sink takes it. The sink reports one byte accepted and holds it, Size() stays 0;
the same transfer into a tracker without capture leaves Size() = 1. -/
theorem captured_bulk_not_counted :
    Size (run (memSink none) (newResponseTracker MemSink.empty 200 true)
      [Op.ReadFrom { data := [1], err := none }]) = 0 ∧
    bytesAccepted (run (memSink none) (newResponseTracker MemSink.empty 200 true)
      [Op.ReadFrom { data := [1], err := none }]).calls = 1 ∧
    (run (memSink none) (newResponseTracker MemSink.empty 200 true)
      [Op.ReadFrom { data := [1], err := none }]).sink.body = [1] ∧
    Size (run (memSink none) (newResponseTracker MemSink.empty 200 false)
      [Op.ReadFrom { data := [1], err := none }]) = 1 := by
  decide

/-- C5, the failing input: a bulk transfer of two bytes into a fresh capturing tracker
whose sink takes one byte per call. The sink accepted the first byte only, Response()
holds both; a Write of the same two bytes captures the first byte only. -/
theorem captured_bulk_exceeds_accepted :
    Response (run (memSink (some 1)) (newResponseTracker MemSink.empty 200 true)
      [Op.ReadFrom { data := [1, 2], err := none }]) = [1, 2] ∧
    bodyAccepted (run (memSink (some 1)) (newResponseTracker MemSink.empty 200 true)
      [Op.ReadFrom { data := [1, 2], err := none }]).calls = [1] ∧
    (run (memSink (some 1)) (newResponseTracker MemSink.empty 200 true)
      [Op.ReadFrom { data := [1, 2], err := none }]).sink.body = [1] ∧
    Response (run (memSink (some 1)) (newResponseTracker MemSink.empty 200 true)
      [Op.Write [1, 2]]) = [1] := by
  decide

/-- C6. On a capturing tracker, for every sequence of calls in which every source
handed to ReadFrom reads without error, into a sink whose Write takes every chunk in
full, Response() afterwards is Response() before followed by the concatenation, in
call order, of the chunks passed to Write and the contents of the sources passed to
ReadFrom; on a fresh tracker it is that concatenation. -/
theorem response_is_concatenation (k : Sink σ) (s : σ) (D : Int) (w : World σ) (ops : List Op)
    (hfull : ∀ s p, (k.Write s p).1.1 = (p.length : Int))
    (hcap : w.rw.storeResponse = true)
    (hsrc : ∀ op ∈ ops, op.failingSource = false) :
    Response (run k w ops) = Response w ++ (ops.map Op.offered).flatten ∧
    Response (run k (newResponseTracker s D true) ops) = (ops.map Op.offered).flatten := by
  constructor
  · exact run_response k hfull ops w hcap hsrc
  · have h := run_response k hfull ops (newResponseTracker s D true) rfl hsrc
    simpa [Response, newResponseTracker] using h

/-- Witness for C6: "ab" written as one chunk then a bulk transfer of "c", against
"a" then "b" then "c": both capture "abc". -/
theorem response_is_concatenation_witness :
    Response (run (memSink none) (newResponseTracker MemSink.empty 200 true)
      [Op.Write [97, 98], Op.ReadFrom { data := [99], err := none }]) = [97, 98, 99] ∧
    Response (run (memSink none) (newResponseTracker MemSink.empty 200 true)
      [Op.Write [97], Op.Write [98], Op.Write [99]]) = [97, 98, 99] :=
  ⟨(response_is_concatenation (memSink none) MemSink.empty 200
      (newResponseTracker MemSink.empty 200 true)
      [Op.Write [97, 98], Op.ReadFrom { data := [99], err := none }]
      (fun _ _ => rfl) rfl (by decide)).2,
   (response_is_concatenation (memSink none) MemSink.empty 200
      (newResponseTracker MemSink.empty 200 true)
      [Op.Write [97], Op.Write [98], Op.Write [99]]
      (fun _ _ => rfl) rfl (by decide)).2⟩

/-- C7, counterexample: a bulk transfer, into a fresh capturing tracker, of a source
that yields one byte and then fails. The hook returns (0, err) and the sink receives
no body byte; the same call made on the sink itself (after the status line) returns
(1, err) and the sink receives the byte. -/
theorem captured_bulk_failing_source_differs :
    (Hooks.ReadFrom (memSink none) (newResponseTracker MemSink.empty 200 true)
      { data := [1], err := some "unexpected EOF" }).1 = (0, some "unexpected EOF") ∧
    (Hooks.ReadFrom (memSink none) (newResponseTracker MemSink.empty 200 true)
      { data := [1], err := some "unexpected EOF" }).2.sink.body = [] ∧
    ((memSink none).ReadFrom
      (WriteStatusHeader (memSink none) (newResponseTracker MemSink.empty 200 true)).sink
      { data := [1], err := some "unexpected EOF" }).1 = (1, some "unexpected EOF") ∧
    ((memSink none).ReadFrom
      (WriteStatusHeader (memSink none) (newResponseTracker MemSink.empty 200 true)).sink
      { data := [1], err := some "unexpected EOF" }).2.body = [1] := by
  decide

/-- C7, amended. Body calls are transparent except for a failing source under
capture. Relative to the sink as the tracker's status emission leaves it: every
Write(p), and every ReadFrom(src) with capture off or with a source that reads without
error, makes exactly the same call on the sink, leaves the sink as that call leaves
it, and returns the (count, error) pair that call returns. With capture on and a
source whose read fails with e, the hook returns (0, e) and makes no body call on the
sink. -/
theorem body_calls_transparent (k : Sink σ) (w : World σ) :
    (∀ p : List Byte,
      (Hooks.Write k w p).1 = (k.Write (WriteStatusHeader k w).sink p).1 ∧
      (Hooks.Write k w p).2.sink = (k.Write (WriteStatusHeader k w).sink p).2 ∧
      (Hooks.Write k w p).2.calls = (WriteStatusHeader k w).calls ++
        [SinkCall.Write p (k.Write (WriteStatusHeader k w).sink p).1.1
          (k.Write (WriteStatusHeader k w).sink p).1.2]) ∧
    (∀ src : Reader, w.rw.storeResponse = false ∨ src.err = none →
      (Hooks.ReadFrom k w src).1 = (k.ReadFrom (WriteStatusHeader k w).sink src).1 ∧
      (Hooks.ReadFrom k w src).2.sink = (k.ReadFrom (WriteStatusHeader k w).sink src).2 ∧
      (Hooks.ReadFrom k w src).2.calls = (WriteStatusHeader k w).calls ++
        [SinkCall.ReadFrom src (k.ReadFrom (WriteStatusHeader k w).sink src).1.1
          (k.ReadFrom (WriteStatusHeader k w).sink src).1.2]) ∧
    (∀ (src : Reader) (e : GoError), w.rw.storeResponse = true → src.err = some e →
      (Hooks.ReadFrom k w src).1 = (0, some e) ∧
      (Hooks.ReadFrom k w src).2.sink = (WriteStatusHeader k w).sink ∧
      (Hooks.ReadFrom k w src).2.calls = (WriteStatusHeader k w).calls) := by
  refine ⟨?_, ?_, ?_⟩
  · intro p
    simp [Hooks_Write_eq]
  · intro src h
    rcases src with ⟨data, err⟩
    cases hc : w.rw.storeResponse
    · simp [Hooks_ReadFrom_eq, WriteStatusHeader_storeResponse, hc]
    · have he : err = none := by
        rcases h with h | h
        · rw [hc] at h; cases h
        · exact h
      subst he
      simp [Hooks_ReadFrom_eq, WriteStatusHeader_storeResponse, hc]
  · intro src e hc he
    simp [Hooks_ReadFrom_eq, WriteStatusHeader_storeResponse, hc, he]

/-- Witness for C7: a bulk transfer of one byte from a source that reads without
error, into a fresh capturing tracker. -/
theorem body_calls_transparent_witness :
    ((newResponseTracker MemSink.empty 200 true).rw.storeResponse = false ∨
      ({ data := [1], err := none } : Reader).err = none) ∧
    (Hooks.ReadFrom (memSink none) (newResponseTracker MemSink.empty 200 true)
      { data := [1], err := none }).1 =
    ((memSink none).ReadFrom
      (WriteStatusHeader (memSink none) (newResponseTracker MemSink.empty 200 true)).sink
      { data := [1], err := none }).1 :=
  ⟨Or.inr rfl,
    ((body_calls_transparent (memSink none) (newResponseTracker MemSink.empty 200 true)).2.1
      { data := [1], err := none } (Or.inr rfl)).1⟩

/-- C8. Once the status line has been emitted, SetStatus is a no-op: in every state
reached from a fresh tracker in which the status line is emitted (by a Write, a
ReadFrom, WriteStatusHeader or a direct WriteHeader), SetStatus(c) changes neither the
tracker nor the sink nor the calls made on it, and Status() is still the one code the
sink received. -/
theorem setStatus_after_emission (k : Sink σ) (s : σ) (D : Int) (cap : Bool)
    (ops : List Op) (c : Int)
    (h : (run k (newResponseTracker s D cap) ops).rw.statusWritten = true) :
    SetStatus (run k (newResponseTracker s D cap) ops) c = run k (newResponseTracker s D cap) ops ∧
    emitted (SetStatus (run k (newResponseTracker s D cap) ops) c).calls =
      [Status (SetStatus (run k (newResponseTracker s D cap) ops) c)] := by
  have hno : SetStatus (run k (newResponseTracker s D cap) ops) c =
      run k (newResponseTracker s D cap) ops := by
    simp [SetStatus, h]
  have hc := Consistent_run k ops _ (Consistent_new s D cap)
  refine ⟨hno, ?_⟩
  rw [hno, hc, h]
  simp [Status]

/-- Witness for C8: SetStatus(500) after SetStatus(404) and a one-byte Write. -/
theorem setStatus_after_emission_witness :
    (run (memSink none) (newResponseTracker MemSink.empty 200 false)
      [Op.SetStatus 404, Op.Write [1]]).rw.statusWritten = true ∧
    Status (SetStatus (run (memSink none) (newResponseTracker MemSink.empty 200 false)
      [Op.SetStatus 404, Op.Write [1]]) 500) = 404 ∧
    emitted (SetStatus (run (memSink none) (newResponseTracker MemSink.empty 200 false)
      [Op.SetStatus 404, Op.Write [1]]) 500).calls =
      [Status (SetStatus (run (memSink none) (newResponseTracker MemSink.empty 200 false)
        [Op.SetStatus 404, Op.Write [1]]) 500)] :=
  ⟨by decide, by decide,
    (setStatus_after_emission (memSink none) MemSink.empty 200 false
      [Op.SetStatus 404, Op.Write [1]] 500 (by decide)).2⟩

/-- C9. WriteStatusHeader is idempotent: from every tracker state, calling it twice
gives the same tracker, sink and calls on the sink as calling it once; and when the
status line has not been emitted, the one call it makes on the sink is WriteHeader
with the recorded status or, if that is unset (0), the default status, which is then
Status(). -/
theorem WriteStatusHeader_idempotent (k : Sink σ) (w : World σ) :
    WriteStatusHeader k (WriteStatusHeader k w) = WriteStatusHeader k w ∧
    (w.rw.statusWritten = false →
      (WriteStatusHeader k w).calls = w.calls ++
        [SinkCall.WriteHeader (if w.rw.status = 0 then w.rw.defaultStatus else w.rw.status)] ∧
      (WriteStatusHeader k w).sink = k.WriteHeader w.sink
        (if w.rw.status = 0 then w.rw.defaultStatus else w.rw.status) ∧
      Status (WriteStatusHeader k w) =
        (if w.rw.status = 0 then w.rw.defaultStatus else w.rw.status)) := by
  constructor
  · exact WriteStatusHeader_written k _ (WriteStatusHeader_statusWritten k w)
  · intro h
    rw [WriteStatusHeader_unwritten k w h]
    simp [pendingStatus, Status]

/-- Witness for C9: a fresh tracker with default status 201 and SetStatus(345). -/
theorem WriteStatusHeader_idempotent_witness :
    (SetStatus (newResponseTracker MemSink.empty 201 false) 345).rw.statusWritten = false ∧
    (WriteStatusHeader (memSink none)
      (SetStatus (newResponseTracker MemSink.empty 201 false) 345)).calls =
      [SinkCall.WriteHeader 345] :=
  ⟨rfl,
    ((WriteStatusHeader_idempotent (memSink none)
      (SetStatus (newResponseTracker MemSink.empty 201 false) 345)).2 rfl).1⟩

/-- C10. For every default status D, on a fresh tracker on which the handler called
neither SetStatus nor a write, after WriteStatusHeader Status() is D, Size() is 0, and
the sink has received exactly one call, WriteHeader(D), so status D and no body. -/
theorem finalize_untouched_tracker (k : Sink σ) (s : σ) (D : Int) (cap : Bool) :
    Status (WriteStatusHeader k (newResponseTracker s D cap)) = D ∧
    Size (WriteStatusHeader k (newResponseTracker s D cap)) = 0 ∧
    (WriteStatusHeader k (newResponseTracker s D cap)).calls = [SinkCall.WriteHeader D] ∧
    (WriteStatusHeader k (newResponseTracker s D cap)).sink = k.WriteHeader s D := by
  rw [WriteStatusHeader_unwritten k _ rfl]
  simp [pendingStatus, Status, Size, newResponseTracker]

/-! ## Order of the calls on the sink -/

theorem HeaderFirst_new (s : σ) (D : Int) (cap : Bool) :
    HeaderFirst (newResponseTracker s D cap) := by
  simp [HeaderFirst, newResponseTracker]

theorem HeaderFirst_WriteStatusHeader (k : Sink σ) (w : World σ) (h : HeaderFirst w) :
    ∃ c rest, (WriteStatusHeader k w).calls = SinkCall.WriteHeader c :: rest := by
  cases hw : w.rw.statusWritten
  · rw [WriteStatusHeader_unwritten k w hw]
    simp [HeaderFirst, hw] at h
    exact ⟨pendingStatus w, [], by simp [h]⟩
  · rw [WriteStatusHeader_written k w hw]
    simpa [HeaderFirst, hw] using h

theorem HeaderFirst_step (k : Sink σ) (w : World σ) (op : Op) (h : HeaderFirst w) :
    HeaderFirst (step k w op) := by
  cases op with
  | SetStatus c =>
    cases hw : w.rw.statusWritten <;> simp [HeaderFirst, hw] at h <;>
      simp [step, SetStatus, hw, HeaderFirst, h]
  | WriteStatusHeader =>
    have h1 := HeaderFirst_WriteStatusHeader k w h
    simp only [step, HeaderFirst, WriteStatusHeader_statusWritten, if_true]
    exact h1
  | WriteHeader c =>
    cases hw : w.rw.statusWritten <;> simp [HeaderFirst, hw] at h <;>
      simp [step, Hooks.WriteHeader, nextWriteHeader, hw, HeaderFirst, h]
  | Write p =>
    obtain ⟨c, rest, h1⟩ := HeaderFirst_WriteStatusHeader k w h
    simp [step, Hooks_Write_eq, HeaderFirst, WriteStatusHeader_statusWritten, h1]
  | ReadFrom src =>
    obtain ⟨c, rest, h1⟩ := HeaderFirst_WriteStatusHeader k w h
    simp only [step, Hooks_ReadFrom_eq]
    split
    · cases src.err <;> simp [HeaderFirst, WriteStatusHeader_statusWritten, h1]
    · simp [HeaderFirst, WriteStatusHeader_statusWritten, h1]

theorem HeaderFirst_run (k : Sink σ) (ops : List Op) :
    ∀ w : World σ, HeaderFirst w → HeaderFirst (run k w ops) := by
  induction ops with
  | nil => intro w h; exact h
  | cons op ops ih => intro w h; exact ih _ (HeaderFirst_step k w op h)

/-- Without capture no call changes the captured body. -/
theorem step_response_off (k : Sink σ) (w : World σ) (op : Op)
    (hcap : w.rw.storeResponse = false) :
    (step k w op).rw.response = w.rw.response := by
  cases op with
  | SetStatus c => cases hw : w.rw.statusWritten <;> simp [step, SetStatus, hw]
  | WriteStatusHeader => simp [step, WriteStatusHeader_response]
  | WriteHeader c =>
    cases hw : w.rw.statusWritten <;> simp [step, Hooks.WriteHeader, nextWriteHeader, hw]
  | Write p =>
    simp [step, Hooks_Write_eq, WriteStatusHeader_storeResponse, hcap,
      WriteStatusHeader_response]
  | ReadFrom src =>
    simp [step, Hooks_ReadFrom_eq, WriteStatusHeader_storeResponse, hcap,
      WriteStatusHeader_response]

theorem run_response_off (k : Sink σ) (ops : List Op) :
    ∀ w : World σ, w.rw.storeResponse = false → (run k w ops).rw.response = w.rw.response := by
  induction ops with
  | nil => intro w _; rfl
  | cons op ops ih =>
    intro w hcap
    rw [run_cons, ih _ (by rw [step_storeResponse]; exact hcap), step_response_off k w op hcap]

/-! ## Claims, continued -/

/-- C11. Partial writes: from every tracker state, for every chunk p, when the sink's
Write returns a count n with 0 <= n (and n <= len(p), which every sink satisfies), one
Write(p) returns that count, increases Size() by exactly n, extends Response() by
exactly the first n bytes of p when capture is on and leaves it unchanged when capture
is off, and makes exactly one Write call on the sink, so the bytes after the first n
are neither counted, captured nor sent again. -/
theorem write_counts_accepted_part (k : Sink σ) (w : World σ) (p : List Byte)
    (hn : 0 ≤ (k.Write (WriteStatusHeader k w).sink p).1.1) :
    (Hooks.Write k w p).1 = (k.Write (WriteStatusHeader k w).sink p).1 ∧
    ((k.Write (WriteStatusHeader k w).sink p).1.1).toNat ≤ p.length ∧
    Size (Hooks.Write k w p).2 = Size w + (k.Write (WriteStatusHeader k w).sink p).1.1 ∧
    Response (Hooks.Write k w p).2 =
      (if w.rw.storeResponse = true
        then Response w ++ p.take ((k.Write (WriteStatusHeader k w).sink p).1.1).toNat
        else Response w) ∧
    (Hooks.Write k w p).2.calls = (WriteStatusHeader k w).calls ++
      [SinkCall.Write p (k.Write (WriteStatusHeader k w).sink p).1.1
        (k.Write (WriteStatusHeader k w).sink p).1.2] := by
  have hle := k.Write_le (WriteStatusHeader k w).sink p
  refine ⟨?_, ?_, ?_, ?_, ?_⟩
  · simp [Hooks_Write_eq]
  · omega
  · simp [Hooks_Write_eq, Size, hn, WriteStatusHeader_size]
  · cases hc : w.rw.storeResponse <;>
      simp [Hooks_Write_eq, Response, hn, WriteStatusHeader_storeResponse, hc,
        WriteStatusHeader_response]
  · simp [Hooks_Write_eq]

/-- Witness for C11: three bytes written to a capturing tracker whose sink takes one
byte per call: Size() becomes 1 and Response() the first byte. -/
theorem write_counts_accepted_part_witness :
    (0 : Int) ≤ ((memSink (some 1)).Write
      (WriteStatusHeader (memSink (some 1)) (newResponseTracker MemSink.empty 200 true)).sink
      [7, 8, 9]).1.1 ∧
    Size (Hooks.Write (memSink (some 1)) (newResponseTracker MemSink.empty 200 true)
      [7, 8, 9]).2 = 1 ∧
    Response (Hooks.Write (memSink (some 1)) (newResponseTracker MemSink.empty 200 true)
      [7, 8, 9]).2 = [7] :=
  ⟨by decide,
    (write_counts_accepted_part (memSink (some 1)) (newResponseTracker MemSink.empty 200 true)
      [7, 8, 9] (by decide)).2.2.1,
    (write_counts_accepted_part (memSink (some 1)) (newResponseTracker MemSink.empty 200 true)
      [7, 8, 9] (by decide)).2.2.2.1⟩

/-- C12. Status() reflects the emission: on a fresh tracker Status() is 0, and in
every state reached from a fresh tracker in which the status line has been emitted,
the sink's WriteHeader has received exactly one code and Status() is that code. -/
theorem status_is_emitted_code (k : Sink σ) (s : σ) (D : Int) (cap : Bool) (ops : List Op) :
    Status (newResponseTracker s D cap) = 0 ∧
    ((run k (newResponseTracker s D cap) ops).rw.statusWritten = true →
      emitted (run k (newResponseTracker s D cap) ops).calls =
        [Status (run k (newResponseTracker s D cap) ops)]) := by
  refine ⟨rfl, ?_⟩
  intro h
  have hc := Consistent_run k ops _ (Consistent_new s D cap)
  rw [hc, h]
  simp [Status]

/-- Witness for C12: SetStatus(345), a direct WriteHeader(404), then a Write. -/
theorem status_is_emitted_code_witness :
    (run (memSink none) (newResponseTracker MemSink.empty 200 false)
      [Op.SetStatus 345, Op.WriteHeader 404, Op.Write [1]]).rw.statusWritten = true ∧
    Status (run (memSink none) (newResponseTracker MemSink.empty 200 false)
      [Op.SetStatus 345, Op.WriteHeader 404, Op.Write [1]]) = 404 ∧
    emitted (run (memSink none) (newResponseTracker MemSink.empty 200 false)
      [Op.SetStatus 345, Op.WriteHeader 404, Op.Write [1]]).calls =
      [Status (run (memSink none) (newResponseTracker MemSink.empty 200 false)
        [Op.SetStatus 345, Op.WriteHeader 404, Op.Write [1]])] :=
  ⟨by decide, by decide,
    (status_is_emitted_code (memSink none) MemSink.empty 200 false
      [Op.SetStatus 345, Op.WriteHeader 404, Op.Write [1]]).2 (by decide)⟩

/-- C13. Status before body: after every sequence of tracker calls on a fresh
tracker, every Write or ReadFrom call made on the sink comes after a WriteHeader call
in the sink's call log, and that WriteHeader is the first call the sink received. -/
theorem status_before_body (k : Sink σ) (s : σ) (D : Int) (cap : Bool) (ops : List Op)
    (before after : List SinkCall) (c : SinkCall)
    (hcalls : (run k (newResponseTracker s D cap) ops).calls = before ++ c :: after)
    (hbody : c.isBody = true) :
    (∃ code, SinkCall.WriteHeader code ∈ before) ∧
    (∃ code rest, before = SinkCall.WriteHeader code :: rest) := by
  have hinv := HeaderFirst_run k ops _ (HeaderFirst_new s D cap)
  have hfirst : ∃ code rest, before = SinkCall.WriteHeader code :: rest := by
    unfold HeaderFirst at hinv
    split at hinv
    · obtain ⟨code, rest, hr⟩ := hinv
      rw [hcalls] at hr
      cases before with
      | nil =>
        simp at hr
        rw [hr.1] at hbody
        simp [SinkCall.isBody] at hbody
      | cons b bs =>
        simp at hr
        exact ⟨code, bs, by rw [hr.1]⟩
    · rw [hcalls] at hinv
      simp at hinv
  obtain ⟨code, rest, hr⟩ := hfirst
  exact ⟨⟨code, by simp [hr]⟩, ⟨code, rest, hr⟩⟩

/-- Witness for C13: a bulk transfer as the first call on a fresh tracker. -/
theorem status_before_body_witness :
    (run (memSink none) (newResponseTracker MemSink.empty 201 false)
      [Op.ReadFrom { data := [1], err := none }]).calls =
      [SinkCall.WriteHeader 201] ++
        SinkCall.ReadFrom { data := [1], err := none } 1 none :: [] ∧
    (SinkCall.ReadFrom { data := [1], err := none } 1 none).isBody = true ∧
    ∃ code, SinkCall.WriteHeader code ∈ [SinkCall.WriteHeader 201] :=
  ⟨by decide, rfl,
    (status_before_body (memSink none) MemSink.empty 201 false
      [Op.ReadFrom { data := [1], err := none }] [SinkCall.WriteHeader 201] []
      (SinkCall.ReadFrom { data := [1], err := none } 1 none) (by decide) rfl).1⟩

theorem bodyAccepted_append (a b : List SinkCall) :
    bodyAccepted (a ++ b) = bodyAccepted a ++ bodyAccepted b := by
  simp [bodyAccepted]

theorem bodyAccepted_WriteStatusHeader (k : Sink σ) (w : World σ) :
    bodyAccepted (WriteStatusHeader k w).calls = bodyAccepted w.calls := by
  cases h : w.rw.statusWritten
  · rw [WriteStatusHeader_unwritten k w h]
    simp [bodyAccepted, SinkCall.taken]
  · rw [WriteStatusHeader_written k w h]

/-- Into a sink that takes every chunk in full, a sequence of Writes delivers the
concatenation of its chunks. -/
theorem run_writes_body (k : Sink σ) (hfull : ∀ s p, (k.Write s p).1.1 = (p.length : Int))
    (ps : List (List Byte)) :
    ∀ w : World σ,
      bodyAccepted (run k w (ps.map Op.Write)).calls = bodyAccepted w.calls ++ ps.flatten := by
  induction ps with
  | nil => intro w; simp [run]
  | cons p ps ih =>
    intro w
    rw [List.map_cons, run_cons, ih]
    simp [step, Hooks_Write_eq, hfull, bodyAccepted_append, bodyAccepted_WriteStatusHeader]
    simp [bodyAccepted, SinkCall.taken]

/-- A sequence of Writes makes no `ReadFrom` call on the sink. -/
theorem run_writes_no_ReadFrom (k : Sink σ) (ps : List (List Byte)) :
    ∀ w : World σ, (∀ c ∈ w.calls, ∀ src n e, c ≠ SinkCall.ReadFrom src n e) →
      ∀ c ∈ (run k w (ps.map Op.Write)).calls, ∀ src n e, c ≠ SinkCall.ReadFrom src n e := by
  induction ps with
  | nil => intro w h; exact h
  | cons p ps ih =>
    intro w h
    rw [List.map_cons, run_cons]
    apply ih
    intro c hc src n e
    have h1 : ∀ c ∈ (WriteStatusHeader k w).calls, ∀ src n e, c ≠ SinkCall.ReadFrom src n e := by
      cases hw : w.rw.statusWritten
      · rw [WriteStatusHeader_unwritten k w hw]
        intro c hc src n e
        simp only [List.mem_append, List.mem_singleton] at hc
        rcases hc with hc | hc
        · exact h c hc src n e
        · rw [hc]; exact fun hne => by cases hne
      · rw [WriteStatusHeader_written k w hw]; exact h
    simp only [step, Hooks_Write_eq, List.mem_append, List.mem_singleton] at hc
    rcases hc with hc | hc
    · exact h1 c hc src n e
    · rw [hc]; exact fun hne => by cases hne

/-- C14. For every default status D, every leading chunk and every body, with capture
on or off, on a fresh tracker with no SetStatus and a sink that takes every byte
offered, Write of the leading chunk followed by a bulk transfer of a source that
yields the body without error delivers status D exactly once, first, followed by
exactly the leading chunk and then the body, on both routes a transfer can take.
Through the ReadFrom hook the sink receives three calls, WriteHeader(D), the Write and
one ReadFrom of the body. Through io.Copy to the tracker, which has no ReadFrom of its
own and so gets one Write per chunk the copy reads, however the body is cut into
chunks: the sink receives WriteHeader(D) first and once, no ReadFrom call, accepts the
leading chunk and then the body, and Size() is the length of both. -/
theorem write_then_bulk_delivers (k : Sink σ) (s : σ) (D : Int) (cap : Bool)
    (lead body : List Byte) (chunks : List (List Byte))
    (hW : ∀ s p, (k.Write s p).1.1 = (p.length : Int))
    (hR : ∀ s src, (k.ReadFrom s src).1.1 = (src.data.length : Int))
    (hchunks : chunks.flatten = body) :
    (emitted (run k (newResponseTracker s D cap)
        [Op.Write lead, Op.ReadFrom { data := body, err := none }]).calls = [D] ∧
      bodyAccepted (run k (newResponseTracker s D cap)
        [Op.Write lead, Op.ReadFrom { data := body, err := none }]).calls = lead ++ body ∧
      (∃ e1 e2, (run k (newResponseTracker s D cap)
        [Op.Write lead, Op.ReadFrom { data := body, err := none }]).calls =
          [SinkCall.WriteHeader D, SinkCall.Write lead lead.length e1,
            SinkCall.ReadFrom { data := body, err := none } body.length e2])) ∧
    (emitted (run k (newResponseTracker s D cap)
        (Op.Write lead :: chunks.map Op.Write)).calls = [D] ∧
      bodyAccepted (run k (newResponseTracker s D cap)
        (Op.Write lead :: chunks.map Op.Write)).calls = lead ++ body ∧
      (∃ rest, (run k (newResponseTracker s D cap)
        (Op.Write lead :: chunks.map Op.Write)).calls = SinkCall.WriteHeader D :: rest) ∧
      (∀ c ∈ (run k (newResponseTracker s D cap) (Op.Write lead :: chunks.map Op.Write)).calls,
        ∀ src n e, c ≠ SinkCall.ReadFrom src n e) ∧
      Size (run k (newResponseTracker s D cap) (Op.Write lead :: chunks.map Op.Write)) =
        (lead.length : Int) + (body.length : Int)) := by
  have hcalls : ∃ e1 e2, (run k (newResponseTracker s D cap)
      [Op.Write lead, Op.ReadFrom { data := body, err := none }]).calls =
        [SinkCall.WriteHeader D, SinkCall.Write lead lead.length e1,
          SinkCall.ReadFrom { data := body, err := none } body.length e2] := by
    cases cap <;>
      simp [run, step, Hooks_Write_eq, Hooks_ReadFrom_eq, WriteStatusHeader,
        writeStatusHeader_unwritten, pendingStatus, newResponseTracker, hW, hR]
  obtain ⟨e1, e2, h⟩ := hcalls
  -- the route through Write only
  have hfin := step_finalizes k (newResponseTracker s D cap) (Op.Write lead) rfl rfl
  have hw := run_written k (chunks.map Op.Write) _ hfin.1
  have hc := Consistent_run k (Op.Write lead :: chunks.map Op.Write) _ (Consistent_new s D cap)
  have hem : emitted (run k (newResponseTracker s D cap)
      (Op.Write lead :: chunks.map Op.Write)).calls = [D] := by
    rw [hc, run_cons, hw.1, hw.2, hfin.2]
    simp [pendingStatus, newResponseTracker]
  have hbody := run_writes_body k hW (lead :: chunks) (newResponseTracker s D cap)
  have hsize := run_writes_size_full k hW (lead :: chunks) (newResponseTracker s D cap)
  have hno := run_writes_no_ReadFrom k (lead :: chunks) (newResponseTracker s D cap)
    (by intro c hc; simp [newResponseTracker] at hc)
  have hhead := HeaderFirst_run k (Op.Write lead :: chunks.map Op.Write) _
    (HeaderFirst_new s D cap)
  rw [List.map_cons] at hbody hsize hno
  refine ⟨⟨?_, ?_, ⟨e1, e2, h⟩⟩, ⟨hem, ?_, ?_, hno, ?_⟩⟩
  · rw [h]; simp [emitted]
  · rw [h]; simp [bodyAccepted, SinkCall.taken]
  · rw [hbody, ← hchunks]
    simp [newResponseTracker, bodyAccepted]
  · unfold HeaderFirst at hhead
    rw [run_cons, hw.1] at hhead
    simp only [if_true] at hhead
    obtain ⟨c, rest, hr⟩ := hhead
    rw [← run_cons] at hr
    have hc1 : c = D := by
      have := hem
      rw [hr] at this
      simp [emitted] at this
      exact this.1
    exact ⟨rest, by rw [hr, hc1]⟩
  · rw [Size, hsize, ← hchunks]
    simp [newResponseTracker, List.length_flatten]

/-- Witness for C14: default status 201, "Response:" written and then "This is the
POST data" transferred, through the ReadFrom hook and as the two Writes of a copy
that reads it in two chunks, into the in-memory sink, which takes every byte. -/
theorem write_then_bulk_delivers_witness :
    [asciiBytes "This is the ", asciiBytes "POST data"].flatten =
      asciiBytes "This is the POST data" ∧
    bodyAccepted (run (memSink none) (newResponseTracker MemSink.empty 201 true)
      [Op.Write (asciiBytes "Response:"),
        Op.ReadFrom { data := asciiBytes "This is the POST data", err := none }]).calls =
      asciiBytes "Response:" ++ asciiBytes "This is the POST data" ∧
    emitted (run (memSink none) (newResponseTracker MemSink.empty 201 true)
      (Op.Write (asciiBytes "Response:") ::
        [asciiBytes "This is the ", asciiBytes "POST data"].map Op.Write)).calls = [201] ∧
    bodyAccepted (run (memSink none) (newResponseTracker MemSink.empty 201 true)
      (Op.Write (asciiBytes "Response:") ::
        [asciiBytes "This is the ", asciiBytes "POST data"].map Op.Write)).calls =
      asciiBytes "Response:" ++ asciiBytes "This is the POST data" ∧
    (run (memSink none) (newResponseTracker MemSink.empty 201 true)
      (Op.Write (asciiBytes "Response:") ::
        [asciiBytes "This is the ", asciiBytes "POST data"].map Op.Write)).sink =
      { codes := [201], body := asciiBytes "Response:This is the POST data" } :=
  ⟨by decide,
    (write_then_bulk_delivers (memSink none) MemSink.empty 201 true (asciiBytes "Response:")
      (asciiBytes "This is the POST data") [asciiBytes "This is the ", asciiBytes "POST data"]
      (fun _ _ => rfl) (fun _ _ => rfl) (by decide)).1.2.1,
    (write_then_bulk_delivers (memSink none) MemSink.empty 201 true (asciiBytes "Response:")
      (asciiBytes "This is the POST data") [asciiBytes "This is the ", asciiBytes "POST data"]
      (fun _ _ => rfl) (fun _ _ => rfl) (by decide)).2.1,
    (write_then_bulk_delivers (memSink none) MemSink.empty 201 true (asciiBytes "Response:")
      (asciiBytes "This is the POST data") [asciiBytes "This is the ", asciiBytes "POST data"]
      (fun _ _ => rfl) (fun _ _ => rfl) (by decide)).2.2.1,
    by decide⟩

/-- C15. Response() is empty whenever capture is off: after every sequence of tracker
calls on a fresh tracker constructed with capture off, Response() is the empty byte
sequence. -/
theorem response_empty_without_capture (k : Sink σ) (s : σ) (D : Int) (ops : List Op) :
    Response (run k (newResponseTracker s D false) ops) = [] := by
  have h := run_response_off k ops (newResponseTracker s D false) rfl
  simpa [Response, newResponseTracker] using h

/-- C16. Sink results propagate unchanged and nothing is retried: every Write(p) makes
exactly one Write call on the sink and returns the (count, error) pair that call
returned; every ReadFrom(src) that reaches the sink (capture off, or a source that
reads without error) makes exactly one ReadFrom call on the sink and returns the
(count, error) pair that call returned. -/
theorem sink_result_returned_once (k : Sink σ) (w : World σ) :
    (∀ p : List Byte,
      (Hooks.Write k w p).1 = (k.Write (WriteStatusHeader k w).sink p).1 ∧
      (Hooks.Write k w p).2.calls = (WriteStatusHeader k w).calls ++
        [SinkCall.Write p (Hooks.Write k w p).1.1 (Hooks.Write k w p).1.2]) ∧
    (∀ src : Reader, (w.rw.storeResponse = true → src.err = none) →
      (Hooks.ReadFrom k w src).1 = (k.ReadFrom (WriteStatusHeader k w).sink src).1 ∧
      (Hooks.ReadFrom k w src).2.calls = (WriteStatusHeader k w).calls ++
        [SinkCall.ReadFrom src (Hooks.ReadFrom k w src).1.1 (Hooks.ReadFrom k w src).1.2]) := by
  constructor
  · intro p
    simp [Hooks_Write_eq]
  · intro src h
    rcases src with ⟨data, err⟩
    cases hc : w.rw.storeResponse
    · simp [Hooks_ReadFrom_eq, WriteStatusHeader_storeResponse, hc]
    · have he : err = none := h hc
      subst he
      simp [Hooks_ReadFrom_eq, WriteStatusHeader_storeResponse, hc]

/-- Witness for C16: a sink that takes one byte of two and reports a short write; the
hook returns the sink's pair. -/
theorem sink_result_returned_once_witness :
    ((newResponseTracker MemSink.empty 200 false).rw.storeResponse = true →
      ({ data := [1, 2], err := none } : Reader).err = none) ∧
    (Hooks.ReadFrom (memSink (some 1)) (newResponseTracker MemSink.empty 200 false)
      { data := [1, 2], err := none }).1 = (1, some "short write") ∧
    (Hooks.ReadFrom (memSink (some 1)) (newResponseTracker MemSink.empty 200 false)
      { data := [1, 2], err := none }).1 =
    ((memSink (some 1)).ReadFrom
      (WriteStatusHeader (memSink (some 1)) (newResponseTracker MemSink.empty 200 false)).sink
      { data := [1, 2], err := none }).1 :=
  ⟨fun _ => rfl, by decide,
    ((sink_result_returned_once (memSink (some 1))
      (newResponseTracker MemSink.empty 200 false)).2
      { data := [1, 2], err := none } (fun _ => rfl)).1⟩

/-- C17, counterexample: "response data" has 13 bytes, so after the single Write into
a sink that takes them all Size() is 13, not 14. -/
theorem response_data_size_is_13 :
    Size (run (memSink none) (newResponseTracker MemSink.empty 200 false)
      [Op.Write (asciiBytes "response data")]) = 13 ∧
    Size (run (memSink none) (newResponseTracker MemSink.empty 200 false)
      [Op.Write (asciiBytes "response data")]) ≠ 14 := by
  decide

/-- C17, amended. On a fresh tracker with default status 200 and no SetStatus, after
a single Write of the bytes of "response data" into a sink that takes them all, the
sink has received status 200 and the body "response data", Status() is 200 and
Size() is 13. -/
theorem response_data_scenario (k : Sink σ) (s : σ) (cap : Bool)
    (hW : ∀ s p, (k.Write s p).1.1 = (p.length : Int)) :
    emitted (run k (newResponseTracker s 200 cap)
      [Op.Write (asciiBytes "response data")]).calls = [200] ∧
    bodyAccepted (run k (newResponseTracker s 200 cap)
      [Op.Write (asciiBytes "response data")]).calls = asciiBytes "response data" ∧
    Status (run k (newResponseTracker s 200 cap) [Op.Write (asciiBytes "response data")]) = 200 ∧
    Size (run k (newResponseTracker s 200 cap) [Op.Write (asciiBytes "response data")]) = 13 := by
  have hlen : ((asciiBytes "response data").length : Int) = 13 := by decide
  refine ⟨?_, ?_, ?_, ?_⟩
  · simp [run, step, Hooks_Write_eq, WriteStatusHeader, writeStatusHeader_unwritten,
      pendingStatus, newResponseTracker, emitted]
  · simp [run, step, Hooks_Write_eq, WriteStatusHeader, writeStatusHeader_unwritten,
      pendingStatus, newResponseTracker, bodyAccepted, SinkCall.taken, hW]
  · simp [run, step, Hooks_Write_eq, WriteStatusHeader, writeStatusHeader_unwritten,
      pendingStatus, newResponseTracker, Status]
  · simp [run, step, Hooks_Write_eq, WriteStatusHeader, writeStatusHeader_unwritten,
      pendingStatus, newResponseTracker, Size, hW, hlen]

/-- Witness for C17: the in-memory sink, which takes every byte. -/
theorem response_data_scenario_witness :
    (run (memSink none) (newResponseTracker MemSink.empty 200 false)
      [Op.Write (asciiBytes "response data")]).sink =
      { codes := [200], body := asciiBytes "response data" } ∧
    Status (run (memSink none) (newResponseTracker MemSink.empty 200 false)
      [Op.Write (asciiBytes "response data")]) = 200 ∧
    Size (run (memSink none) (newResponseTracker MemSink.empty 200 false)
      [Op.Write (asciiBytes "response data")]) = 13 :=
  ⟨by decide,
    (response_data_scenario (memSink none) MemSink.empty false (fun _ _ => rfl)).2.2.1,
    (response_data_scenario (memSink none) MemSink.empty false (fun _ _ => rfl)).2.2.2⟩

/-- C18. SetStatus has no effect beyond the recorded status: from every tracker state
and for every code c, SetStatus(c) makes no call on the sink and leaves the sink, the
emitted flag, Size(), Response(), the default status and the capture flag unchanged;
when the status line has not been emitted, the tracker afterwards is the tracker
before with the recorded status replaced by c, so Status() is c. -/
theorem setStatus_frame (k : Sink σ) (w : World σ) (c : Int) :
    (SetStatus w c).calls = w.calls ∧
    (SetStatus w c).sink = w.sink ∧
    (SetStatus w c).rw.statusWritten = w.rw.statusWritten ∧
    Size (SetStatus w c) = Size w ∧
    Response (SetStatus w c) = Response w ∧
    (SetStatus w c).rw.defaultStatus = w.rw.defaultStatus ∧
    (SetStatus w c).rw.storeResponse = w.rw.storeResponse ∧
    (w.rw.statusWritten = false →
      SetStatus w c = { w with rw := { w.rw with status := c } } ∧
      Status (SetStatus w c) = c ∧
      step k w (Op.SetStatus c) = SetStatus w c) := by
  cases hw : w.rw.statusWritten <;> simp [SetStatus, hw, Size, Response, Status, step]

/-- Witness for C18: SetStatus(345) on a fresh tracker with default status 200. -/
theorem setStatus_frame_witness :
    (newResponseTracker MemSink.empty 200 true).rw.statusWritten = false ∧
    Status (SetStatus (newResponseTracker MemSink.empty 200 true) 345) = 345 :=
  ⟨rfl,
    ((setStatus_frame (memSink none) (newResponseTracker MemSink.empty 200 true) 345).2.2.2.2.2.2.2
      rfl).2.1⟩

/-- C19. A direct WriteHeader(c) through the tracker before emission overrides the
recorded status: from every tracker state with the status line not emitted, whatever
the recorded and the default status, the one call made on the sink is WriteHeader(c),
Status() becomes c, the status line counts as emitted, and every later WriteHeader
through the tracker changes nothing and does not reach the sink; on a fresh tracker,
after any SetStatus calls, a direct WriteHeader(c) and any later calls, the sink has
received c and no other status. -/
theorem direct_writeHeader_overrides (k : Sink σ) (s : σ) (D : Int) (cap : Bool)
    (w : World σ) (c : Int) (cs : List Int) (later : List Op)
    (hw : w.rw.statusWritten = false) :
    (Hooks.WriteHeader k w c).calls = w.calls ++ [SinkCall.WriteHeader c] ∧
    (Hooks.WriteHeader k w c).sink = k.WriteHeader w.sink c ∧
    Status (Hooks.WriteHeader k w c) = c ∧
    (Hooks.WriteHeader k w c).rw.statusWritten = true ∧
    (∀ c2 : Int, Hooks.WriteHeader k (Hooks.WriteHeader k w c) c2 = Hooks.WriteHeader k w c) ∧
    emitted (run k (newResponseTracker s D cap)
      (cs.map Op.SetStatus ++ Op.WriteHeader c :: later)).calls = [c] ∧
    Status (run k (newResponseTracker s D cap)
      (cs.map Op.SetStatus ++ Op.WriteHeader c :: later)) = c := by
  have h0 := run_setStatus k cs (newResponseTracker s D cap) rfl
  have h1 : (step k (run k (newResponseTracker s D cap) (cs.map Op.SetStatus))
      (Op.WriteHeader c)).rw.statusWritten = true := by
    simp [step, Hooks.WriteHeader, nextWriteHeader, h0.1]
  have h2 : (step k (run k (newResponseTracker s D cap) (cs.map Op.SetStatus))
      (Op.WriteHeader c)).rw.status = c := by
    simp [step, Hooks.WriteHeader, nextWriteHeader, h0.1]
  have hr := run_written k later _ h1
  have hc := Consistent_run k (cs.map Op.SetStatus ++ Op.WriteHeader c :: later) _
    (Consistent_new s D cap)
  have hst : (run k (newResponseTracker s D cap)
      (cs.map Op.SetStatus ++ Op.WriteHeader c :: later)).rw.status = c := by
    rw [run_append, run_cons, hr.2, h2]
  have hwr : (run k (newResponseTracker s D cap)
      (cs.map Op.SetStatus ++ Op.WriteHeader c :: later)).rw.statusWritten = true := by
    rw [run_append, run_cons, hr.1]
  refine ⟨?_, ?_, ?_, ?_, ?_, ?_, hst⟩
  · simp [Hooks.WriteHeader, nextWriteHeader, hw]
  · simp [Hooks.WriteHeader, nextWriteHeader, hw]
  · simp [Hooks.WriteHeader, nextWriteHeader, hw, Status]
  · simp [Hooks.WriteHeader, nextWriteHeader, hw]
  · intro c2
    simp [Hooks.WriteHeader, nextWriteHeader, hw]
  · rw [hc, hwr, hst]; simp

/-- Witness for C19: SetStatus(345) on a fresh tracker with default status 200, then
WriteHeader(404), a Write and WriteHeader(500): the sink receives 404 only. -/
theorem direct_writeHeader_overrides_witness :
    (SetStatus (newResponseTracker MemSink.empty 200 false) 345).rw.statusWritten = false ∧
    (Hooks.WriteHeader (memSink none)
      (SetStatus (newResponseTracker MemSink.empty 200 false) 345) 404).calls =
      [SinkCall.WriteHeader 404] ∧
    emitted (run (memSink none) (newResponseTracker MemSink.empty 200 false)
      ([345].map Op.SetStatus ++ Op.WriteHeader 404 :: [Op.Write [1], Op.WriteHeader 500])).calls
      = [404] :=
  ⟨rfl,
    (direct_writeHeader_overrides (memSink none) MemSink.empty 200 false
      (SetStatus (newResponseTracker MemSink.empty 200 false) 345) 404 [345]
      [Op.Write [1], Op.WriteHeader 500] rfl).1,
    (direct_writeHeader_overrides (memSink none) MemSink.empty 200 false
      (SetStatus (newResponseTracker MemSink.empty 200 false) 345) 404 [345]
      [Op.Write [1], Op.WriteHeader 500] rfl).2.2.2.2.2.1⟩

/-- C20. Bulk transfer with capture on and a failing source: from every capturing
tracker state and for every source whose read fails with error e after yielding any
bytes, ReadFrom returns (0, e) and leaves the tracker, the sink and the calls made on
it exactly as WriteStatusHeader would: no body call reaches the sink, Size() and
Response() are unchanged, and the status line is emitted, with the recorded or else
the default status when it was not emitted before. -/
theorem captured_bulk_failing_source (k : Sink σ) (w : World σ) (src : Reader) (e : GoError)
    (hcap : w.rw.storeResponse = true) (herr : src.err = some e) :
    (Hooks.ReadFrom k w src).1 = (0, some e) ∧
    (Hooks.ReadFrom k w src).2 = WriteStatusHeader k w ∧
    bodyAccepted (Hooks.ReadFrom k w src).2.calls = bodyAccepted w.calls ∧
    Size (Hooks.ReadFrom k w src).2 = Size w ∧
    Response (Hooks.ReadFrom k w src).2 = Response w ∧
    (Hooks.ReadFrom k w src).2.rw.statusWritten = true ∧
    (w.rw.statusWritten = true → (Hooks.ReadFrom k w src).2.calls = w.calls) ∧
    (w.rw.statusWritten = false →
      (Hooks.ReadFrom k w src).2.calls = w.calls ++ [SinkCall.WriteHeader (pendingStatus w)]) := by
  have h2 : (Hooks.ReadFrom k w src).2 = WriteStatusHeader k w := by
    simp [Hooks_ReadFrom_eq, WriteStatusHeader_storeResponse, hcap, herr]
  refine ⟨?_, h2, ?_, ?_, ?_, ?_, ?_, ?_⟩
  · simp [Hooks_ReadFrom_eq, WriteStatusHeader_storeResponse, hcap, herr]
  · rw [h2]
    cases hw : w.rw.statusWritten
    · rw [WriteStatusHeader_unwritten k w hw]
      simp [bodyAccepted, SinkCall.taken]
    · rw [WriteStatusHeader_written k w hw]
  · rw [h2]; simp [Size, WriteStatusHeader_size]
  · rw [h2]; simp [Response, WriteStatusHeader_response]
  · rw [h2]; exact WriteStatusHeader_statusWritten k w
  · intro hw
    rw [h2, WriteStatusHeader_written k w hw]
  · intro hw
    rw [h2, WriteStatusHeader_unwritten k w hw]

/-- Witness for C20: a source that yields one byte and then fails, transferred into a
fresh capturing tracker with default status 200. -/
theorem captured_bulk_failing_source_witness :
    (newResponseTracker MemSink.empty 200 true).rw.storeResponse = true ∧
    ({ data := [1], err := some "unexpected EOF" } : Reader).err = some "unexpected EOF" ∧
    (Hooks.ReadFrom (memSink none) (newResponseTracker MemSink.empty 200 true)
      { data := [1], err := some "unexpected EOF" }).1 = (0, some "unexpected EOF") ∧
    (Hooks.ReadFrom (memSink none) (newResponseTracker MemSink.empty 200 true)
      { data := [1], err := some "unexpected EOF" }).2.calls = [SinkCall.WriteHeader 200] :=
  ⟨rfl, rfl,
    (captured_bulk_failing_source (memSink none) (newResponseTracker MemSink.empty 200 true)
      { data := [1], err := some "unexpected EOF" } "unexpected EOF" rfl rfl).1,
    (captured_bulk_failing_source (memSink none) (newResponseTracker MemSink.empty 200 true)
      { data := [1], err := some "unexpected EOF" } "unexpected EOF" rfl rfl).2.2.2.2.2.2.2 rfl⟩

end ApiRouter
